import Mathlib

/-!
# scanItems.go — a DynamoDB table scan traced as one New Relic transaction

Shallow embedding of `src/scanItems.go`.  The program is one `main` that calls
into the Go standard library, the AWS SDK and the New Relic agent.  Every such
call is recorded as an `Effect`; what the outside world answers to a call
(flag values, errors, the scan response, the decoded records) is read from a
`World`.  `main w` is the run of the program in world `w`: the sequence of
effects it performs and the exit status of the process.

The model covers the runs in which `flag.Parse` returns to `main`; what the
`flag` package does by itself on a malformed command line is not in the
source file.
-/

namespace ScanItems

/-! ## Data model -/

/-- Record holds info about the records returned by Scan (`type Record struct`,
fields `ID string` and `URL []string`).  A Go slice is modelled by a list, so a
nil slice and an empty slice are the same value here. -/
structure Record where
  ID : String
  URL : List String

/-- Modelled from the spec: the attribute-value type of the storage SDK
(`types.AttributeValue`) is not declared in the source file.  It is the
backend's typed value: a string, a number (kept as text), binary data, a
boolean, null, a list of values, a map of values, and the three set types. -/
inductive AttributeValue where
  | S (value : String)
  | N (value : String)
  | B (value : List Nat)
  | BOOL (value : Bool)
  | NULL
  | L (value : List AttributeValue)
  | M (value : List (String × AttributeValue))
  | SS (value : List String)
  | NS (value : List String)
  | BS (value : List (List Nat))

/-- One stored item as the backend returns it: an attribute-value map
(`map[string]types.AttributeValue`), kept as an association list. -/
abbrev Item := List (String × AttributeValue)

/-- Modelled from the spec: the request type `dynamodb.ScanInput` is not
declared in the source file.  The fields are the table name and the request
parameters the specification speaks of (filter, projection, limit, exclusive
start key); a field that is `none` is unset. -/
structure ScanInput where
  TableName : Option String := none
  FilterExpression : Option String := none
  ProjectionExpression : Option String := none
  Limit : Option Nat := none
  ExclusiveStartKey : Option Item := none

/-- Modelled from the spec: the response type `dynamodb.ScanOutput` is not
declared in the source file.  `main` reads `Items` only; `LastEvaluatedKey` is
the continuation token it never looks at. -/
structure ScanOutput where
  Items : List Item
  LastEvaluatedKey : Option Item := none

/-! ## Effects and worlds -/

/-- The calls `main` makes that are visible outside the process, each with the
arguments the source passes. -/
inductive Effect where
  -- Go call: `flag.Parse()`
  | flagParse
  -- Go call: `flag.PrintDefaults()`: the usage text of the two flags
  | printDefaults
  -- Go call: `log.Fatalf(format, args...)`: one log line, then `os.Exit(1)`
  | logFatalf (format : String) (args : List String)
  -- Go call: `newrelic.NewApplication(...)`, with the app name and the
  -- distributed tracing switch the source configures
  | newApplication (appName : String) (distributedTracer : Bool)
  -- Go call: `fmt.Println(err)`
  | println (text : String)
  -- Go call: `os.Exit(code)`
  | osExit (code : Nat)
  -- Go call: `config.LoadDefaultConfig(context.TODO(), config.WithRegion(region))`
  | loadDefaultConfig (region : String)
  -- Go call: `app.WaitForConnection(seconds * time.Second)`
  | waitForConnection (seconds : Nat)
  -- Go call: `nraws.AppendMiddlewares(&cfg.APIOptions, nil)`
  | appendMiddlewares
  -- Go call: `dynamodb.NewFromConfig(cfg)`
  | newFromConfig
  -- Go call: `app.StartTransaction(name)`
  | startTransaction (name : String)
  -- Go call: `txn.AddAttribute(key, value)`
  | addAttribute (key : String) (value : String)
  -- Go call: `newrelic.NewContext(context.Background(), txn)`
  | newContext
  -- Go call: `client.Scan(ctx, param)`
  | scan (param : ScanInput)
  -- Go call: `txn.End()`
  | txnEnd
  -- Go call: `attributevalue.UnmarshalListOfMaps(scan.Items, &records)`
  | unmarshalListOfMaps (items : List Item)
  -- Go call: `log.Printf(format, record)`
  | logPrintf (format : String) (record : Record)
  -- Go call: `app.Shutdown(seconds * time.Second)`
  | shutdown (seconds : Nat)

/-- What the outside world answers to the calls of `main`.  An error is kept
as its message. -/
structure World where
  /-- value of the `-table` flag once `flag.Parse` has returned -/
  tableName : String
  /-- value of the `-region` flag once `flag.Parse` has returned -/
  region : String
  /-- result of `newrelic.NewApplication`: the application or an error -/
  newApplication : Except String Unit
  /-- result of `config.LoadDefaultConfig` for a region -/
  loadDefaultConfig : String → Except String Unit
  /-- error returned by `app.WaitForConnection` (a timeout), `none` for nil;
  the source discards it -/
  waitForConnection : Option String
  /-- result of `client.Scan` for a request -/
  scan : ScanInput → Except String ScanOutput
  /-- result of `attributevalue.UnmarshalListOfMaps` into `[]Record` -/
  unmarshalListOfMaps : List Item → Except String (List Record)

/-- A finished run: the effects in the order they happened and the exit status
of the process. -/
structure Run where
  trace : List Effect
  exit : Nat

/-! ## The program -/

/-- Go's `len` of a string: its number of bytes. -/
def len (s : String) : Nat := s.utf8ByteSize

/-- The loop `for _, record := range records { log.Printf("Record : %v", record) }`. -/
def logRecords : List Record → List Effect
  | [] => []
  | record :: rest => Effect.logPrintf "Record : %v" record :: logRecords rest

/-- The request built at lines 75-77: `&dynamodb.ScanInput{TableName: aws.String(tableName)}`. -/
def scanParam (tableName : String) : ScanInput := { TableName := some tableName }

/-- The function `main` of `scanItems.go`, statement by statement. -/
def main (w : World) : Run :=
  let t := [Effect.flagParse]
  if len w.tableName = 0 then
    ⟨t ++ [.printDefaults, .logFatalf "invalid parameters, table name required" []], 1⟩
  else if len w.region = 0 then
    ⟨t ++ [.printDefaults, .logFatalf "invalid parameters, region name required" []], 1⟩
  else
    let t := t ++ [.newApplication "Go Dynamo App" true]
    match w.newApplication with
    | .error err => ⟨t ++ [.println err, .osExit 1], 1⟩
    | .ok _ =>
      let t := t ++ [.loadDefaultConfig w.region]
      match w.loadDefaultConfig w.region with
      | .error err => ⟨t ++ [.logFatalf "unable to load SDK config, %v" [err]], 1⟩
      | .ok _ =>
        let t := t ++ [.waitForConnection 5, .appendMiddlewares, .newFromConfig]
        let param := scanParam w.tableName
        let t := t ++ [.startTransaction "dynamoScan", .addAttribute "table" w.tableName,
          .newContext, .scan param]
        match w.scan param with
        | .error err => ⟨t ++ [.logFatalf "Query API call failed: %s" [err]], 1⟩
        | .ok out =>
          let t := t ++ [.txnEnd, .unmarshalListOfMaps out.Items]
          match w.unmarshalListOfMaps out.Items with
          | .error err => ⟨t ++ [.logFatalf "unable to unmarshal records: %v" [err]], 1⟩
          | .ok records => ⟨t ++ logRecords records ++ [.shutdown 5], 0⟩

/-- The effects of a run up to and including the scan request. -/
def upToScan (w : World) : List Effect :=
  [.flagParse, .newApplication "Go Dynamo App" true, .loadDefaultConfig w.region,
   .waitForConnection 5, .appendMiddlewares, .newFromConfig,
   .startTransaction "dynamoScan", .addAttribute "table" w.tableName, .newContext,
   .scan (scanParam w.tableName)]

/-! ## Reading a trace -/

/-- The scan requests issued in a trace, in order. -/
def scanRequests : List Effect → List ScanInput
  | [] => []
  | .scan param :: rest => param :: scanRequests rest
  | _ :: rest => scanRequests rest

/-- The lines written by `log.Printf` in a trace, in order: the format and the
record it renders. -/
def recordLines : List Effect → List (String × Record)
  | [] => []
  | .logPrintf format record :: rest => (format, record) :: recordLines rest
  | _ :: rest => recordLines rest

/-- Recogniser of `newrelic.NewApplication(...)`. -/
def Effect.isNewApplication : Effect → Bool
  | .newApplication _ _ => true
  | _ => false

/-- Recogniser of `config.LoadDefaultConfig(...)`. -/
def Effect.isLoadDefaultConfig : Effect → Bool
  | .loadDefaultConfig _ => true
  | _ => false

/-- Recogniser of `client.Scan(...)`. -/
def Effect.isScan : Effect → Bool
  | .scan _ => true
  | _ => false

/-- Recogniser of `app.Shutdown(...)`. -/
def Effect.isShutdown : Effect → Bool
  | .shutdown _ => true
  | _ => false

/-- Position of an effect in the text of `main`: the source line of its call.
The three calls that end the process (`log.Fatalf`, `fmt.Println` before
`os.Exit`, `os.Exit`) occur at several lines and get a position after every
other call, `flag.PrintDefaults` gets the position of the argument checks. -/
def Effect.line : Effect → Nat
  | .flagParse => 37
  | .printDefaults => 39
  | .newApplication _ _ => 50
  | .loadDefaultConfig _ => 62
  | .waitForConnection _ => 68
  | .appendMiddlewares => 71
  | .newFromConfig => 73
  | .startTransaction _ => 78
  | .addAttribute _ _ => 81
  | .newContext => 83
  | .scan _ => 85
  | .txnEnd => 91
  | .unmarshalListOfMaps _ => 93
  | .logPrintf _ _ => 98
  | .shutdown _ => 102
  | .println _ => 200
  | .osExit _ => 201
  | .logFatalf _ _ => 202

/-! ## The decoding step, from the specification -/

/-- Modelled from the spec: decoding of one attribute value into a Go `string`,
a part of `attributevalue.UnmarshalListOfMaps` of the storage SDK, which is not
in the source file.  Only a string value has the expected type.  The round
trip passes through the success branch only; the SDK itself is more permissive
on other values (see `worldNumberInURL`). -/
def decodeString : AttributeValue → Except String String
  | .S value => .ok value
  | _ => .error "cannot unmarshal into string"

/-- Modelled from the spec: decoding of the elements of a list value into a Go
`[]string`, in order; it fails at the first element that is not a string
(URL holding non-string elements, decode fails). -/
def decodeStrings : List AttributeValue → Except String (List String)
  | [] => .ok []
  | v :: rest =>
    match decodeString v with
    | .error err => .error err
    | .ok s =>
      match decodeStrings rest with
      | .error err => .error err
      | .ok ss => .ok (s :: ss)

/-- Modelled from the spec: decoding of one attribute-value map into a
`Record`, the explicit field-by-field mapping with the declared keys `ID`
(a string) and `URL` (a list of strings) of the specification.  An item
missing the ID field fails, a field of another type fails (shape mismatch).
The specification does not say what an item without a URL field decodes to:
`missingURL` is that outcome, an error or a default list.  The round trip
passes through the success branches only; the SDK itself is more permissive on
other shapes (see `worldMissingID`). -/
def decodeRecord (missingURL : Except String (List String)) (item : Item) :
    Except String Record :=
  match item.lookup "ID" with
  | none => .error "missing field ID"
  | some idValue =>
    match decodeString idValue with
    | .error err => .error err
    | .ok id =>
      match item.lookup "URL" with
      | none =>
        match missingURL with
        | .error err => .error err
        | .ok urls => .ok ⟨id, urls⟩
      | some (.L values) =>
        match decodeStrings values with
        | .error err => .error err
        | .ok urls => .ok ⟨id, urls⟩
      | some _ => .error "cannot unmarshal into []string"

/-- Modelled from the spec: `attributevalue.UnmarshalListOfMaps` with target
`[]Record`, a function of the storage SDK that is not in the source file.
The items are decoded one by one, in order; the first item that fails makes
the whole decoding fail, otherwise there is one record per item. -/
def unmarshalListOfMaps (missingURL : Except String (List String)) :
    List Item → Except String (List Record)
  | [] => .ok []
  | item :: rest =>
    match decodeRecord missingURL item with
    | .error err => .error err
    | .ok record =>
      match unmarshalListOfMaps missingURL rest with
      | .error err => .error err
      | .ok records => .ok (record :: records)

/-- The encoding of a `Record` the specification's round trip speaks of: the
attribute-value map with `ID` a string value and `URL` a list of string
values. -/
def encodeRecord (r : Record) : Item :=
  [("ID", .S r.ID), ("URL", .L (r.URL.map AttributeValue.S))]

/-- An item lacks the ID field. -/
def lacksID (item : Item) : Prop := item.lookup "ID" = none

/-- The URL field of an item is a list value holding an element that is not a
string value. -/
def urlHoldsNonString (item : Item) : Prop :=
  ∃ values, item.lookup "URL" = some (.L values) ∧
    ∃ v ∈ values, ∀ s, v ≠ AttributeValue.S s

/-! ## Worlds used as concrete inputs -/

/-- A world in which every call succeeds and the table holds the given items,
decoded by the decoder of the specification (a missing URL field is an error). -/
def worldWith (table region : String) (items : List Item) : World where
  tableName := table
  region := region
  newApplication := .ok ()
  loadDefaultConfig := fun _ => .ok ()
  waitForConnection := none
  scan := fun _ => .ok { Items := items }
  unmarshalListOfMaps := unmarshalListOfMaps (.error "missing field URL")

/-- Two stored items of the expected shape. -/
def sampleItems : List Item :=
  [[("ID", .S "id1"), ("URL", .L [.S "http://a"])],
   [("ID", .S "id2"), ("URL", .L [.S "http://b", .S "http://c"])]]

/-- Every call succeeds, the table `urls` in `us-east-1` holds the two sample
items. -/
def worldOK : World := worldWith "urls" "us-east-1" sampleItems

/-- The `-table` flag was not given. -/
def worldNoTable : World := worldWith "" "us-east-1" sampleItems

/-- The telemetry application is constructed, the SDK configuration cannot be
loaded. -/
def worldNoConfig : World :=
  { worldOK with loadDefaultConfig := fun _ => .error "invalid region" }

/-- The scan call returns an error. -/
def worldScanFails : World :=
  { worldOK with scan := fun _ => .error "network error" }

/-- The scan returns a well-formed item followed by an item whose URL is a
string value instead of a list; the decoder rejects the response. -/
def worldBadItem : World :=
  worldWith "urls" "us-east-1"
    [[("ID", .S "id1"), ("URL", .L [.S "http://a"])],
     [("ID", .S "id2"), ("URL", .S "http://b")]]

/-- A well-formed item followed by an item without the ID field. -/
def missingIDItems : List Item :=
  [[("ID", .S "id1"), ("URL", .L [.S "http://a"])], [("URL", .L [.S "http://b"])]]

/-- The scan returns `missingIDItems` and the decoder answers as the reflective
decoder of the storage SDK does on that response: it returns no error, and the
field `ID`, absent from the second map, keeps the zero value of a Go string. -/
def worldMissingID : World :=
  { worldWith "urls" "us-east-1" missingIDItems with
    unmarshalListOfMaps := fun _ => .ok [⟨"id1", ["http://a"]⟩, ⟨"", ["http://b"]⟩] }

/-- A well-formed item followed by an item whose URL list holds a number. -/
def nonStringItems : List Item :=
  [[("ID", .S "id1"), ("URL", .L [.S "http://a"])],
   [("ID", .S "id2"), ("URL", .L [.S "http://b", .N "1"])]]

/-- The scan returns `nonStringItems` and the decoder answers as the reflective
decoder of the storage SDK does on that response: it returns no error, and the
number in the URL list is stored in the `[]string` as its text. -/
def worldNumberInURL : World :=
  { worldWith "urls" "us-east-1" nonStringItems with
    unmarshalListOfMaps := fun _ =>
      .ok [⟨"id1", ["http://a"]⟩, ⟨"id2", ["http://b", "1"]⟩] }

/-- The scan of an empty table. -/
def worldEmpty : World := worldWith "urls" "us-east-1" []

/-- The connection wait times out, everything else as in `worldOK`. -/
def worldWaitTimesOut : World :=
  { worldOK with waitForConnection := some "timeout out after 5s" }

/-! ## Basic facts -/

theorem utf8ByteSize_go_eq_zero (cs : List Char) :
    String.utf8ByteSize.go cs = 0 ↔ cs = [] := by
  cases cs with
  | nil => simp [String.utf8ByteSize.go]
  | cons c cs =>
    have := Char.utf8Size_pos c
    simp [String.utf8ByteSize.go]
    omega

/-- Go's `len(s) == 0` holds exactly for the empty string. -/
theorem len_eq_zero_iff (s : String) : len s = 0 ↔ s = "" := by
  cases s with
  | mk cs =>
    simp only [len, String.utf8ByteSize, utf8ByteSize_go_eq_zero]
    constructor
    · intro h; subst h; rfl
    · intro h; exact congrArg String.data h

/-- The record lines of the logging loop: one per record, in order. -/
theorem recordLines_logRecords (records : List Record) :
    recordLines (logRecords records) = records.map (fun r => ("Record : %v", r)) := by
  induction records with
  | nil => rfl
  | cons r rest ih => simp [logRecords, recordLines, ih]

/-- Reading the record lines of a trace distributes over concatenation. -/
theorem recordLines_append (s t : List Effect) :
    recordLines (s ++ t) = recordLines s ++ recordLines t := by
  induction s with
  | nil => rfl
  | cons e rest ih => cases e <;> simp [recordLines, ih]

/-- Reading the scan requests of a trace distributes over concatenation. -/
theorem scanRequests_append (s t : List Effect) :
    scanRequests (s ++ t) = scanRequests s ++ scanRequests t := by
  induction s with
  | nil => rfl
  | cons e rest ih => cases e <;> simp [scanRequests, ih]

/-- The logging loop issues no scan request. -/
theorem scanRequests_logRecords (records : List Record) :
    scanRequests (logRecords records) = [] := by
  induction records with
  | nil => rfl
  | cons r rest ih => simp [logRecords, scanRequests, ih]

/-- Every effect of the logging loop is a `log.Printf` of one of the records. -/
theorem mem_logRecords {e : Effect} {records : List Record} (h : e ∈ logRecords records) :
    ∃ r ∈ records, e = Effect.logPrintf "Record : %v" r := by
  induction records with
  | nil => simp [logRecords] at h
  | cons r rest ih =>
    simp only [logRecords, List.mem_cons] at h
    rcases h with h | h
    · exact ⟨r, by simp, h⟩
    · obtain ⟨r', hr', he⟩ := ih h
      exact ⟨r', by simp [hr'], he⟩

/-- The seven ways through `main`: for every world exactly the stage that
stops the run, with the run it gives. -/
theorem main_cases (w : World) :
    (w.tableName = "" ∧ main w =
      ⟨[.flagParse, .printDefaults,
        .logFatalf "invalid parameters, table name required" []], 1⟩) ∨
    (w.tableName ≠ "" ∧ w.region = "" ∧ main w =
      ⟨[.flagParse, .printDefaults,
        .logFatalf "invalid parameters, region name required" []], 1⟩) ∨
    (w.tableName ≠ "" ∧ w.region ≠ "" ∧ ∃ err, w.newApplication = .error err ∧ main w =
      ⟨[.flagParse, .newApplication "Go Dynamo App" true, .println err, .osExit 1], 1⟩) ∨
    (w.tableName ≠ "" ∧ w.region ≠ "" ∧ w.newApplication = .ok () ∧
      ∃ err, w.loadDefaultConfig w.region = .error err ∧ main w =
      ⟨[.flagParse, .newApplication "Go Dynamo App" true, .loadDefaultConfig w.region,
        .logFatalf "unable to load SDK config, %v" [err]], 1⟩) ∨
    (w.tableName ≠ "" ∧ w.region ≠ "" ∧ w.newApplication = .ok () ∧
      w.loadDefaultConfig w.region = .ok () ∧
      ∃ err, w.scan (scanParam w.tableName) = .error err ∧ main w =
      ⟨upToScan w ++ [.logFatalf "Query API call failed: %s" [err]], 1⟩) ∨
    (w.tableName ≠ "" ∧ w.region ≠ "" ∧ w.newApplication = .ok () ∧
      w.loadDefaultConfig w.region = .ok () ∧
      ∃ out err, w.scan (scanParam w.tableName) = .ok out ∧
        w.unmarshalListOfMaps out.Items = .error err ∧ main w =
      ⟨upToScan w ++ [.txnEnd, .unmarshalListOfMaps out.Items,
        .logFatalf "unable to unmarshal records: %v" [err]], 1⟩) ∨
    (w.tableName ≠ "" ∧ w.region ≠ "" ∧ w.newApplication = .ok () ∧
      w.loadDefaultConfig w.region = .ok () ∧
      ∃ out records, w.scan (scanParam w.tableName) = .ok out ∧
        w.unmarshalListOfMaps out.Items = .ok records ∧ main w =
      ⟨upToScan w ++ [.txnEnd, .unmarshalListOfMaps out.Items] ++ logRecords records ++
        [.shutdown 5], 0⟩) := by
  by_cases ht : w.tableName = ""
  · left
    exact ⟨ht, by simp [main, (len_eq_zero_iff _).2 ht]⟩
  right
  have ht' : ¬ len w.tableName = 0 := fun h => ht ((len_eq_zero_iff _).1 h)
  by_cases hr : w.region = ""
  · left
    exact ⟨ht, hr, by simp [main, ht', (len_eq_zero_iff _).2 hr]⟩
  right
  have hr' : ¬ len w.region = 0 := fun h => hr ((len_eq_zero_iff _).1 h)
  cases happ : w.newApplication with
  | error err =>
    left
    exact ⟨ht, hr, err, rfl, by simp [main, ht', hr', happ]⟩
  | ok u =>
    right
    cases hcfg : w.loadDefaultConfig w.region with
    | error err =>
      left
      exact ⟨ht, hr, rfl, err, rfl, by simp [main, ht', hr', happ, hcfg]⟩
    | ok u' =>
      right
      cases hscan : w.scan (scanParam w.tableName) with
      | error err =>
        left
        exact ⟨ht, hr, rfl, rfl, err, rfl, by simp [main, upToScan, ht', hr', happ, hcfg, hscan]⟩
      | ok out =>
        right
        cases hdec : w.unmarshalListOfMaps out.Items with
        | error err =>
          left
          exact ⟨ht, hr, rfl, rfl, out, err, rfl, hdec,
            by simp [main, upToScan, ht', hr', happ, hcfg, hscan, hdec]⟩
        | ok records =>
          right
          exact ⟨ht, hr, rfl, rfl, out, records, rfl, hdec,
            by simp [main, upToScan, ht', hr', happ, hcfg, hscan, hdec]⟩

/-- The run in which every call succeeds, evaluated. -/
theorem main_worldOK : main worldOK =
    ⟨[.flagParse, .newApplication "Go Dynamo App" true, .loadDefaultConfig "us-east-1",
      .waitForConnection 5, .appendMiddlewares, .newFromConfig,
      .startTransaction "dynamoScan", .addAttribute "table" "urls", .newContext,
      .scan (scanParam "urls"), .txnEnd, .unmarshalListOfMaps sampleItems,
      .logPrintf "Record : %v" ⟨"id1", ["http://a"]⟩,
      .logPrintf "Record : %v" ⟨"id2", ["http://b", "http://c"]⟩,
      .shutdown 5], 0⟩ := rfl

/-- The exit status is 0 exactly on the path through `main` on which every
stage succeeds. -/
theorem exit_status_all_stages (w : World) :
    (main w).exit = 0 ↔
      (w.tableName ≠ "" ∧ w.region ≠ "") ∧
      w.newApplication = .ok () ∧
      w.loadDefaultConfig w.region = .ok () ∧
      ∃ out, w.scan (scanParam w.tableName) = .ok out ∧
        ∃ records, w.unmarshalListOfMaps out.Items = .ok records := by
  rcases main_cases w with ⟨ht, hm⟩ | ⟨_, hr, hm⟩ | ⟨_, _, err, happ, hm⟩ |
    ⟨_, _, _, err, hcfg, hm⟩ |
    ⟨_, _, _, _, err, hscan, hm⟩ | ⟨_, _, _, _, out, err, hscan, hdec, hm⟩ |
    ⟨ht, hr, happ, hcfg, out, records, hscan, hdec, hm⟩
  · simp [hm, ht]
  · simp [hm, hr]
  · simp [hm, happ]
  · simp [hm, hcfg]
  · simp [hm, hscan]
  · simp [hm, hscan, hdec]
  · simp [hm, ht, hr, happ, hcfg, hscan, hdec]

/-- A run that exits non-zero has written no record line. -/
theorem no_record_line_of_fatal (w : World) (h : (main w).exit ≠ 0) :
    recordLines (main w).trace = [] := by
  rcases main_cases w with ⟨_, hm⟩ | ⟨_, _, hm⟩ | ⟨_, _, err, _, hm⟩ | ⟨_, _, _, err, _, hm⟩ |
    ⟨_, _, _, _, err, hscan, hm⟩ | ⟨_, _, _, _, out, err, hscan, hdec, hm⟩ |
    ⟨_, _, _, _, out, records, hscan, hdec, hm⟩
  · simp [hm, recordLines]
  · simp [hm, recordLines]
  · simp [hm, recordLines]
  · simp [hm, recordLines]
  · simp [hm, upToScan, recordLines]
  · simp [hm, upToScan, recordLines]
  · exact absurd (by rw [hm]) h

/-- A scan response whose decoding fails makes the run exit non-zero. -/
theorem fatal_of_decode_error (w : World) (out : ScanOutput) (err : String)
    (hscan : w.scan (scanParam w.tableName) = .ok out)
    (hdec : w.unmarshalListOfMaps out.Items = .error err) :
    (main w).exit ≠ 0 := by
  intro h0
  obtain ⟨_, _, _, out', hscan', records, hdec'⟩ := (exit_status_all_stages w).1 h0
  rw [hscan] at hscan'
  cases hscan'
  rw [hdec] at hdec'
  cases hdec'

/-- A run that reaches the scan and decodes its response writes one record
line per decoded record, in order, and exits with status 0. -/
theorem record_lines_of_decoded (w : World) (out : ScanOutput) (records : List Record)
    (ht : w.tableName ≠ "") (hr : w.region ≠ "")
    (happ : w.newApplication = .ok ()) (hcfg : w.loadDefaultConfig w.region = .ok ())
    (hscan : w.scan (scanParam w.tableName) = .ok out)
    (hdec : w.unmarshalListOfMaps out.Items = .ok records) :
    recordLines (main w).trace = records.map (fun r => ("Record : %v", r)) ∧
    (main w).exit = 0 := by
  refine ⟨?_, (exit_status_all_stages w).2 ⟨⟨ht, hr⟩, happ, hcfg, out, hscan, records, hdec⟩⟩
  rcases main_cases w with ⟨ht', _⟩ | ⟨_, hr', _⟩ | ⟨_, _, err, happ', _⟩ |
    ⟨_, _, _, err, hcfg', _⟩ |
    ⟨_, _, _, _, err, hscan', _⟩ | ⟨_, _, _, _, out', err, hscan', hdec', _⟩ |
    ⟨_, _, _, _, out', records', hscan', hdec', hm⟩
  · exact absurd ht' ht
  · exact absurd hr' hr
  · rw [happ] at happ'; cases happ'
  · rw [hcfg] at hcfg'; cases hcfg'
  · rw [hscan] at hscan'; cases hscan'
  · rw [hscan] at hscan'; cases hscan'
    rw [hdec] at hdec'; cases hdec'
  · rw [hscan] at hscan'; cases hscan'
    rw [hdec] at hdec'; cases hdec'
    simp [hm, upToScan, recordLines_append, recordLines, recordLines_logRecords]

/-! ## The claims -/

/-- C1: when the `-table` value or the `-region` value is empty, the run prints
the flag usage text and ends in `log.Fatalf` with a non-zero exit status; its
trace is `flag.Parse`, `flag.PrintDefaults`, `log.Fatalf` and so holds no
telemetry application construction, no SDK config load and no scan request. -/
theorem main_missing_flag_is_fatal (w : World)
    (h : w.tableName = "" ∨ w.region = "") :
    (∃ msg, (main w).trace = [.flagParse, .printDefaults, .logFatalf msg []]) ∧
    Effect.printDefaults ∈ (main w).trace ∧
    (main w).exit ≠ 0 ∧
    ∀ e ∈ (main w).trace,
      e.isNewApplication = false ∧ e.isLoadDefaultConfig = false ∧ e.isScan = false := by
  have key : ∃ msg, (main w).trace = [.flagParse, .printDefaults, .logFatalf msg []] ∧
      (main w).exit = 1 := by
    by_cases ht : len w.tableName = 0
    · exact ⟨"invalid parameters, table name required", by simp [main, ht]⟩
    · have hr : len w.region = 0 := by
        rcases h with h | h
        · exact absurd ((len_eq_zero_iff _).2 h) ht
        · exact (len_eq_zero_iff _).2 h
      exact ⟨"invalid parameters, region name required", by simp [main, ht, hr]⟩
  obtain ⟨msg, htrace, hexit⟩ := key
  refine ⟨⟨msg, htrace⟩, ?_, ?_, ?_⟩
  · simp [htrace]
  · simp [hexit]
  · intro e he
    rw [htrace] at he
    simp only [List.mem_cons, List.mem_singleton, List.not_mem_nil, or_false] at he
    rcases he with he | he | he <;> subst he <;>
      simp [Effect.isNewApplication, Effect.isLoadDefaultConfig, Effect.isScan]

/-- Witness of C1: the run without a `-table` value. -/
theorem main_missing_flag_is_fatal_witness :
    (worldNoTable.tableName = "" ∨ worldNoTable.region = "") ∧
    ((∃ msg, (main worldNoTable).trace = [.flagParse, .printDefaults, .logFatalf msg []]) ∧
    Effect.printDefaults ∈ (main worldNoTable).trace ∧
    (main worldNoTable).exit ≠ 0 ∧
    ∀ e ∈ (main worldNoTable).trace,
      e.isNewApplication = false ∧ e.isLoadDefaultConfig = false ∧ e.isScan = false) :=
  ⟨Or.inl rfl, main_missing_flag_is_fatal worldNoTable (Or.inl rfl)⟩

/-- Counterexample to C2: when the scan call fails, the run has started the
`dynamoScan` transaction, `log.Fatalf` follows the scan call at once, the
process exits with status 1 and the transaction has never been ended. -/
theorem scan_failure_leaves_transaction_open :
    worldScanFails.scan (scanParam worldScanFails.tableName) = .error "network error" ∧
    (main worldScanFails).trace =
      [.flagParse, .newApplication "Go Dynamo App" true, .loadDefaultConfig "us-east-1",
       .waitForConnection 5, .appendMiddlewares, .newFromConfig,
       .startTransaction "dynamoScan", .addAttribute "table" "urls", .newContext,
       .scan (scanParam "urls"), .logFatalf "Query API call failed: %s" ["network error"]] ∧
    (main worldScanFails).exit = 1 ∧
    Effect.startTransaction "dynamoScan" ∈ (main worldScanFails).trace ∧
    Effect.txnEnd ∉ (main worldScanFails).trace := by
  have hm : (main worldScanFails).trace =
      [.flagParse, .newApplication "Go Dynamo App" true, .loadDefaultConfig "us-east-1",
       .waitForConnection 5, .appendMiddlewares, .newFromConfig,
       .startTransaction "dynamoScan", .addAttribute "table" "urls", .newContext,
       .scan (scanParam "urls"), .logFatalf "Query API call failed: %s" ["network error"]] := rfl
  refine ⟨rfl, hm, rfl, ?_, ?_⟩
  · rw [hm]; simp
  · rw [hm]; simp

/-- The logging loop holds no `txn.End()`. -/
theorem txnEnd_not_mem_logRecords (records : List Record) :
    Effect.txnEnd ∉ logRecords records := by
  intro h
  obtain ⟨r, _, he⟩ := mem_logRecords h
  cases he

/-- C2, amended: in every run that starts the `dynamoScan` transaction, if the
scan call succeeds the transaction is ended exactly once, by the effect right
after the scan call and before decoding, logging and the end of the process;
if the scan call returns an error the process exits with status 1 and the
transaction is never ended. -/
theorem transaction_ended_when_scan_succeeds (w : World)
    (h : Effect.startTransaction "dynamoScan" ∈ (main w).trace) :
    (∀ out, w.scan (scanParam w.tableName) = .ok out →
      ∃ pre post, (main w).trace = pre ++ [.scan (scanParam w.tableName), .txnEnd] ++ post ∧
        Effect.startTransaction "dynamoScan" ∈ pre ∧
        Effect.txnEnd ∉ pre ∧ Effect.txnEnd ∉ post) ∧
    (∀ err, w.scan (scanParam w.tableName) = .error err →
      (main w).exit = 1 ∧ Effect.txnEnd ∉ (main w).trace) := by
  rcases main_cases w with ⟨_, hm⟩ | ⟨_, _, hm⟩ | ⟨_, _, err, _, hm⟩ | ⟨_, _, _, err, _, hm⟩ |
    ⟨_, _, _, _, err, hscan, hm⟩ | ⟨_, _, _, _, out, err, hscan, hdec, hm⟩ |
    ⟨_, _, _, _, out, records, hscan, hdec, hm⟩
  · simp [hm] at h
  · simp [hm] at h
  · simp [hm] at h
  · simp [hm] at h
  · refine ⟨fun out ho => ?_, fun err' _ => ?_⟩
    · rw [hscan] at ho; cases ho
    · simp [hm, upToScan]
  · refine ⟨fun out' _ => ?_, fun err' he => ?_⟩
    · refine ⟨[.flagParse, .newApplication "Go Dynamo App" true, .loadDefaultConfig w.region,
        .waitForConnection 5, .appendMiddlewares, .newFromConfig,
        .startTransaction "dynamoScan", .addAttribute "table" w.tableName, .newContext],
        [.unmarshalListOfMaps out.Items,
         .logFatalf "unable to unmarshal records: %v" [err]], ?_, ?_, ?_, ?_⟩
      · simp [hm, upToScan]
      · simp
      · simp
      · simp
    · rw [hscan] at he; cases he
  · refine ⟨fun out' _ => ?_, fun err' he => ?_⟩
    · refine ⟨[.flagParse, .newApplication "Go Dynamo App" true, .loadDefaultConfig w.region,
        .waitForConnection 5, .appendMiddlewares, .newFromConfig,
        .startTransaction "dynamoScan", .addAttribute "table" w.tableName, .newContext],
        .unmarshalListOfMaps out.Items :: (logRecords records ++ [.shutdown 5]), ?_, ?_, ?_, ?_⟩
      · simp [hm, upToScan]
      · simp
      · simp
      · simp [txnEnd_not_mem_logRecords]
    · rw [hscan] at he; cases he

/-- Witness of the amended C2: the run in which every call succeeds. -/
theorem transaction_ended_when_scan_succeeds_witness :
    Effect.startTransaction "dynamoScan" ∈ (main worldOK).trace ∧
    ((∀ out, worldOK.scan (scanParam worldOK.tableName) = .ok out →
      ∃ pre post, (main worldOK).trace =
          pre ++ [.scan (scanParam worldOK.tableName), .txnEnd] ++ post ∧
        Effect.startTransaction "dynamoScan" ∈ pre ∧
        Effect.txnEnd ∉ pre ∧ Effect.txnEnd ∉ post) ∧
    (∀ err, worldOK.scan (scanParam worldOK.tableName) = .error err →
      (main worldOK).exit = 1 ∧ Effect.txnEnd ∉ (main worldOK).trace)) :=
  have h : Effect.startTransaction "dynamoScan" ∈ (main worldOK).trace := by
    rw [main_worldOK]; simp
  ⟨h, transaction_ended_when_scan_succeeds worldOK h⟩

/-- C3: all-or-nothing logging.  When the scan response is such that decoding
its item list into `[]Record` fails, the run writes no record line and exits
non-zero; and no run at all writes a record line and exits non-zero. -/
theorem decode_failure_logs_nothing (w : World) :
    (∀ out err, w.scan (scanParam w.tableName) = .ok out →
      w.unmarshalListOfMaps out.Items = .error err →
      recordLines (main w).trace = [] ∧ (main w).exit ≠ 0) ∧
    ((main w).exit ≠ 0 → recordLines (main w).trace = []) :=
  ⟨fun out err hscan hdec =>
    ⟨no_record_line_of_fatal w (fatal_of_decode_error w out err hscan hdec),
      fatal_of_decode_error w out err hscan hdec⟩,
   no_record_line_of_fatal w⟩

/-- Witness of C3: the scan returns a well-formed item followed by an item
whose URL is a string value; decoding fails and nothing is logged, not even
the first record. -/
theorem decode_failure_logs_nothing_witness :
    worldBadItem.scan (scanParam worldBadItem.tableName) =
      .ok { Items := [[("ID", .S "id1"), ("URL", .L [.S "http://a"])],
                      [("ID", .S "id2"), ("URL", .S "http://b")]] } ∧
    worldBadItem.unmarshalListOfMaps
      [[("ID", .S "id1"), ("URL", .L [.S "http://a"])],
       [("ID", .S "id2"), ("URL", .S "http://b")]] =
      .error "cannot unmarshal into []string" ∧
    recordLines (main worldBadItem).trace = [] ∧ (main worldBadItem).exit ≠ 0 :=
  ⟨rfl, rfl, (decode_failure_logs_nothing worldBadItem).1 _ _ rfl rfl⟩

/-- C4: no run issues more than one scan request; a run with non-empty
`-table` and `-region` in which the telemetry application and the SDK
configuration are obtained issues exactly one, whose table name is the
`-table` value and whose filter, projection, limit and exclusive start key are
unset. -/
theorem exactly_one_scan_request (w : World) :
    (scanRequests (main w).trace).length ≤ 1 ∧
    (w.tableName ≠ "" → w.region ≠ "" → w.newApplication = .ok () →
      w.loadDefaultConfig w.region = .ok () →
      ∃ param, scanRequests (main w).trace = [param] ∧
        param.TableName = some w.tableName ∧
        param.FilterExpression = none ∧
        param.ProjectionExpression = none ∧
        param.Limit = none ∧
        param.ExclusiveStartKey = none) := by
  rcases main_cases w with ⟨ht, hm⟩ | ⟨_, hr, hm⟩ | ⟨_, _, err, happ, hm⟩ |
    ⟨_, _, _, err, hcfg, hm⟩ |
    ⟨_, _, _, _, err, hscan, hm⟩ | ⟨_, _, _, _, out, err, hscan, hdec, hm⟩ |
    ⟨_, _, _, _, out, records, hscan, hdec, hm⟩
  · exact ⟨by simp [hm, scanRequests], fun h => absurd ht h⟩
  · exact ⟨by simp [hm, scanRequests], fun _ h => absurd hr h⟩
  · refine ⟨by simp [hm, scanRequests], fun _ _ h => ?_⟩
    rw [happ] at h; cases h
  · refine ⟨by simp [hm, scanRequests], fun _ _ _ h => ?_⟩
    rw [hcfg] at h; cases h
  · exact ⟨by simp [hm, upToScan, scanRequests], fun _ _ _ _ =>
      ⟨scanParam w.tableName, by simp [hm, upToScan, scanRequests], rfl, rfl, rfl, rfl, rfl⟩⟩
  · exact ⟨by simp [hm, upToScan, scanRequests], fun _ _ _ _ =>
      ⟨scanParam w.tableName, by simp [hm, upToScan, scanRequests], rfl, rfl, rfl, rfl, rfl⟩⟩
  · exact ⟨by simp [hm, upToScan, scanRequests, scanRequests_append, scanRequests_logRecords],
      fun _ _ _ _ => ⟨scanParam w.tableName,
        by simp [hm, upToScan, scanRequests, scanRequests_append, scanRequests_logRecords],
        rfl, rfl, rfl, rfl, rfl⟩⟩

/-- Witness of C4: the run in which the scan call fails still issued its one
request, for the table `urls`. -/
theorem exactly_one_scan_request_witness :
    worldScanFails.tableName ≠ "" ∧ worldScanFails.region ≠ "" ∧
    worldScanFails.newApplication = .ok () ∧
    worldScanFails.loadDefaultConfig worldScanFails.region = .ok () ∧
    ∃ param, scanRequests (main worldScanFails).trace = [param] ∧
      param.TableName = some worldScanFails.tableName ∧
      param.FilterExpression = none ∧
      param.ProjectionExpression = none ∧
      param.Limit = none ∧
      param.ExclusiveStartKey = none :=
  have ht : worldScanFails.tableName ≠ "" := by decide
  have hr : worldScanFails.region ≠ "" := by decide
  ⟨ht, hr, rfl, rfl, (exactly_one_scan_request worldScanFails).2 ht hr rfl rfl⟩

/-- The last effect of a trace that ends in a given effect. -/
theorem getLast?_append_singleton (t : List Effect) (e : Effect) :
    (t ++ [e]).getLast? = some e := by
  simp

/-- C5: the exit status of a run is 0 exactly when the five stages succeed
(both flag values non-empty, telemetry application constructed, SDK
configuration loaded, scan call returned a response, item list decoded), and
then the records were logged and the telemetry shutdown was the last effect;
it is 1 whenever one of the five stages fails. -/
theorem exit_status_zero_iff_all_stages_succeed (w : World) :
    ((main w).exit = 0 ↔
      (w.tableName ≠ "" ∧ w.region ≠ "") ∧
      w.newApplication = .ok () ∧
      w.loadDefaultConfig w.region = .ok () ∧
      ∃ out, w.scan (scanParam w.tableName) = .ok out ∧
        ∃ records, w.unmarshalListOfMaps out.Items = .ok records) ∧
    ((main w).exit ≠ 0 → (main w).exit = 1) ∧
    ((main w).exit = 0 →
      ∃ out records, w.scan (scanParam w.tableName) = .ok out ∧
        w.unmarshalListOfMaps out.Items = .ok records ∧
        recordLines (main w).trace = records.map (fun r => ("Record : %v", r)) ∧
        (main w).trace.getLast? = some (.shutdown 5)) := by
  rcases main_cases w with ⟨ht, hm⟩ | ⟨_, hr, hm⟩ | ⟨_, _, err, happ, hm⟩ |
    ⟨_, _, _, err, hcfg, hm⟩ |
    ⟨_, _, _, _, err, hscan, hm⟩ | ⟨_, _, _, _, out, err, hscan, hdec, hm⟩ |
    ⟨ht, hr, happ, hcfg, out, records, hscan, hdec, hm⟩
  · simp [hm, ht]
  · simp [hm, hr]
  · simp [hm, happ]
  · simp [hm, hcfg]
  · simp [hm, hscan]
  · simp [hm, hscan, hdec]
  · refine ⟨?_, ?_, ?_⟩
    · simp [hm, ht, hr, happ, hcfg, hscan, hdec]
    · simp [hm]
    · intro _
      refine ⟨out, records, hscan, hdec, ?_, ?_⟩
      · simp [hm, upToScan, recordLines_append, recordLines, recordLines_logRecords]
      · rw [hm]; exact getLast?_append_singleton _ _

/-- Witness of C5: the run in which every call succeeds exits with status 0
after logging the two records and shutting the telemetry session down. -/
theorem exit_status_zero_iff_all_stages_succeed_witness :
    (main worldOK).exit = 0 ∧
    ∃ out records, worldOK.scan (scanParam worldOK.tableName) = .ok out ∧
      worldOK.unmarshalListOfMaps out.Items = .ok records ∧
      recordLines (main worldOK).trace = records.map (fun r => ("Record : %v", r)) ∧
      (main worldOK).trace.getLast? = some (.shutdown 5) :=
  ⟨rfl, (exit_status_zero_iff_all_stages_succeed worldOK).2.2 rfl⟩

/-- C8: in a run that reaches the scan, when the scan call succeeds and its
items decode to the records `records`, the record lines written are exactly
the renderings `log.Printf("Record : %v", record)` of these records, one per
record and in their order, and the exit status is 0; for no record there is no
record line. -/
theorem one_line_per_record_in_order (w : World) (out : ScanOutput) (records : List Record)
    (ht : w.tableName ≠ "") (hr : w.region ≠ "")
    (happ : w.newApplication = .ok ()) (hcfg : w.loadDefaultConfig w.region = .ok ())
    (hscan : w.scan (scanParam w.tableName) = .ok out)
    (hdec : w.unmarshalListOfMaps out.Items = .ok records) :
    recordLines (main w).trace = records.map (fun r => ("Record : %v", r)) ∧
    (recordLines (main w).trace).length = records.length ∧
    (∀ i (h : i < records.length),
      (recordLines (main w).trace)[i]? = some ("Record : %v", records[i])) ∧
    (records = [] → recordLines (main w).trace = []) ∧
    (main w).exit = 0 := by
  have hlines : recordLines (main w).trace = records.map (fun r => ("Record : %v", r)) := by
    rcases main_cases w with ⟨ht', _⟩ | ⟨_, hr', _⟩ | ⟨_, _, err, happ', _⟩ |
      ⟨_, _, _, err, hcfg', _⟩ |
      ⟨_, _, _, _, err, hscan', _⟩ | ⟨_, _, _, _, out', err, hscan', hdec', _⟩ |
      ⟨_, _, _, _, out', records', hscan', hdec', hm⟩
    · exact absurd ht' ht
    · exact absurd hr' hr
    · rw [happ] at happ'; cases happ'
    · rw [hcfg] at hcfg'; cases hcfg'
    · rw [hscan] at hscan'; cases hscan'
    · rw [hscan] at hscan'; cases hscan'
      rw [hdec] at hdec'; cases hdec'
    · rw [hscan] at hscan'; cases hscan'
      rw [hdec] at hdec'; cases hdec'
      simp [hm, upToScan, recordLines_append, recordLines, recordLines_logRecords]
  have hexit : (main w).exit = 0 :=
    (exit_status_all_stages w).2 ⟨⟨ht, hr⟩, happ, hcfg, out, hscan, records, hdec⟩
  refine ⟨hlines, by simp [hlines], ?_, ?_, hexit⟩
  · intro i h
    simp [hlines, h]
  · intro h
    simp [hlines, h]

/-- Witness of C8: the scan returns two items that decode to two records; the
run writes two record lines, the first for the first record and the second for
the second, and exits with status 0.  The scan of an empty table decodes to no
record; the run writes no record line and exits with status 0. -/
theorem one_line_per_record_in_order_witness :
    (worldOK.tableName ≠ "" ∧ worldOK.region ≠ "" ∧
      worldOK.newApplication = .ok () ∧
      worldOK.loadDefaultConfig worldOK.region = .ok () ∧
      worldOK.scan (scanParam worldOK.tableName) = .ok { Items := sampleItems } ∧
      worldOK.unmarshalListOfMaps sampleItems =
        .ok [⟨"id1", ["http://a"]⟩, ⟨"id2", ["http://b", "http://c"]⟩] ∧
      recordLines (main worldOK).trace =
        [("Record : %v", ⟨"id1", ["http://a"]⟩),
         ("Record : %v", ⟨"id2", ["http://b", "http://c"]⟩)] ∧
      (recordLines (main worldOK).trace).length = 2 ∧
      (recordLines (main worldOK).trace)[0]? = some ("Record : %v", ⟨"id1", ["http://a"]⟩) ∧
      (recordLines (main worldOK).trace)[1]? =
        some ("Record : %v", ⟨"id2", ["http://b", "http://c"]⟩) ∧
      (main worldOK).exit = 0) ∧
    (worldEmpty.scan (scanParam worldEmpty.tableName) = .ok { Items := [] } ∧
      worldEmpty.unmarshalListOfMaps [] = .ok [] ∧
      recordLines (main worldEmpty).trace = [] ∧ (main worldEmpty).exit = 0) :=
  have ht : worldOK.tableName ≠ "" := by decide
  have hr : worldOK.region ≠ "" := by decide
  have h := one_line_per_record_in_order worldOK { Items := sampleItems }
    [⟨"id1", ["http://a"]⟩, ⟨"id2", ["http://b", "http://c"]⟩] ht hr rfl rfl rfl rfl
  have h0 := one_line_per_record_in_order worldEmpty { Items := [] } [] ht hr rfl rfl rfl rfl
  ⟨⟨ht, hr, rfl, rfl, rfl, rfl, h.1, h.2.1, h.2.2.1 0 (by decide), h.2.2.1 1 (by decide),
     h.2.2.2.2⟩,
   ⟨rfl, rfl, h0.1, h0.2.2.2.2⟩⟩

/-- The logging loop holds no `app.Shutdown`. -/
theorem isShutdown_of_mem_logRecords {e : Effect} {records : List Record}
    (h : e ∈ logRecords records) : e.isShutdown = false := by
  obtain ⟨r, _, he⟩ := mem_logRecords h
  subst he
  rfl

/-- Counterexample to C9: the telemetry application is constructed and the
SDK configuration cannot be loaded; the last effect of the run is `log.Fatalf`
and the run holds no `app.Shutdown`. -/
theorem fatal_run_ends_without_shutdown :
    worldNoConfig.newApplication = .ok () ∧
    (main worldNoConfig).trace =
      [.flagParse, .newApplication "Go Dynamo App" true, .loadDefaultConfig "us-east-1",
       .logFatalf "unable to load SDK config, %v" ["invalid region"]] ∧
    (main worldNoConfig).trace.getLast? =
      some (.logFatalf "unable to load SDK config, %v" ["invalid region"]) ∧
    (∀ e ∈ (main worldNoConfig).trace, e.isShutdown = false) ∧
    (main worldNoConfig).exit = 1 := by
  have hm : (main worldNoConfig).trace =
      [.flagParse, .newApplication "Go Dynamo App" true, .loadDefaultConfig "us-east-1",
       .logFatalf "unable to load SDK config, %v" ["invalid region"]] := rfl
  refine ⟨rfl, hm, by rw [hm]; rfl, ?_, rfl⟩
  intro e he
  rw [hm] at he
  simp only [List.mem_cons, List.mem_singleton, List.not_mem_nil, or_false] at he
  rcases he with he | he | he | he <;> subst he <;> rfl

/-- C9, amended: in every run that exits with status 0 (the telemetry
application was constructed and every later stage succeeded) the last effect
is `app.Shutdown` with the 5 second timeout, and it is the only shutdown of the
run; a run that exits non-zero performs no shutdown at all. -/
theorem shutdown_last_exactly_on_success (w : World) :
    ((main w).exit = 0 →
      w.newApplication = .ok () ∧
      ∃ t, (main w).trace = t ++ [.shutdown 5] ∧ ∀ e ∈ t, e.isShutdown = false) ∧
    ((main w).exit ≠ 0 → ∀ e ∈ (main w).trace, e.isShutdown = false) := by
  rcases main_cases w with ⟨ht, hm⟩ | ⟨_, hr, hm⟩ | ⟨_, _, err, happ, hm⟩ |
    ⟨_, _, _, err, hcfg, hm⟩ |
    ⟨_, _, _, _, err, hscan, hm⟩ | ⟨_, _, _, _, out, err, hscan, hdec, hm⟩ |
    ⟨ht, hr, happ, hcfg, out, records, hscan, hdec, hm⟩
  · simp [hm, Effect.isShutdown]
  · simp [hm, Effect.isShutdown]
  · simp [hm, Effect.isShutdown]
  · simp [hm, Effect.isShutdown]
  · simp [hm, upToScan, Effect.isShutdown]
  · simp [hm, upToScan, Effect.isShutdown]
  · refine ⟨fun _ => ⟨happ, _, by rw [hm], ?_⟩, fun h => absurd (by rw [hm]) h⟩
    intro e he
    simp only [upToScan, List.mem_append, List.mem_cons, List.mem_singleton,
      List.not_mem_nil, or_false] at he
    rcases he with (he | he) | he
    · rcases he with he | he | he | he | he | he | he | he | he | he <;> subst he <;> rfl
    · rcases he with he | he <;> subst he <;> rfl
    · exact isShutdown_of_mem_logRecords he

/-- Witness of the amended C9: the run in which every call succeeds ends in
the shutdown; the run whose SDK configuration cannot be loaded has none. -/
theorem shutdown_last_exactly_on_success_witness :
    ((main worldOK).exit = 0 ∧
      ∃ t, (main worldOK).trace = t ++ [.shutdown 5] ∧ ∀ e ∈ t, e.isShutdown = false) ∧
    ((main worldNoConfig).exit ≠ 0 ∧
      ∀ e ∈ (main worldNoConfig).trace, e.isShutdown = false) :=
  ⟨⟨rfl, ((shutdown_last_exactly_on_success worldOK).1 rfl).2⟩,
   ⟨by decide, (shutdown_last_exactly_on_success worldNoConfig).2 (by decide)⟩⟩

/-- Every effect of the logging loop is the call at line 98. -/
theorem line_of_mem_logRecords {e : Effect} {records : List Record}
    (h : e ∈ logRecords records) : e.line = 98 := by
  obtain ⟨r, _, he⟩ := mem_logRecords h
  subst he
  rfl

/-- Counterexample to C10: in the run in which every call succeeds the SDK
configuration load, the first step of storage client construction, is the
third effect and the wait for the telemetry connection is the fourth. -/
theorem config_load_precedes_connection_wait :
    (main worldOK).trace.take 4 =
      [.flagParse, .newApplication "Go Dynamo App" true, .loadDefaultConfig "us-east-1",
       .waitForConnection 5] ∧
    (main worldOK).trace[2]? = some (.loadDefaultConfig "us-east-1") ∧
    (main worldOK).trace[3]? = some (.waitForConnection 5) :=
  ⟨rfl, rfl, rfl⟩

/-- C10, amended: in every run the effects occur in the order of their calls
in the text of `main`, each call at most once but for the record lines of the
logging loop, the report of a failure coming last; a run that exits with
status 0 performs, in this order, argument
parsing, telemetry application construction, SDK config load, the wait of 5
seconds for the telemetry connection, middleware instrumentation, client
creation, transaction start, attribute, context, scan, transaction end,
decoding, the record lines and the shutdown.  The wait comes after the SDK
config load and before the other steps of client construction, and its
outcome (a timeout) changes nothing in the run. -/
theorem effects_follow_source_order (w : World) :
    (main w).trace.Pairwise (fun a b => a.line < b.line ∨ (a.line = 98 ∧ b.line = 98)) ∧
    ((main w).exit = 0 →
      ∃ out records, w.scan (scanParam w.tableName) = .ok out ∧
        w.unmarshalListOfMaps out.Items = .ok records ∧
        (main w).trace =
          [.flagParse, .newApplication "Go Dynamo App" true, .loadDefaultConfig w.region,
           .waitForConnection 5, .appendMiddlewares, .newFromConfig,
           .startTransaction "dynamoScan", .addAttribute "table" w.tableName, .newContext,
           .scan (scanParam w.tableName), .txnEnd, .unmarshalListOfMaps out.Items] ++
          logRecords records ++ [.shutdown 5]) ∧
    (∀ timeout, main { w with waitForConnection := timeout } = main w) := by
  refine ⟨?_, ?_, fun _ => rfl⟩
  · rcases main_cases w with ⟨_, hm⟩ | ⟨_, _, hm⟩ | ⟨_, _, err, _, hm⟩ | ⟨_, _, _, err, _, hm⟩ |
      ⟨_, _, _, _, err, _, hm⟩ | ⟨_, _, _, _, out, err, _, _, hm⟩ |
      ⟨_, _, _, _, out, records, _, _, hm⟩
    · simp [hm, Effect.line]
    · simp [hm, Effect.line]
    · simp [hm, Effect.line]
    · simp [hm, Effect.line]
    · simp [hm, upToScan, Effect.line]
    · simp [hm, upToScan, Effect.line]
    · rw [hm]
      have hlog : (logRecords records).Pairwise
          (fun a b => a.line < b.line ∨ (a.line = 98 ∧ b.line = 98)) := by
        rw [List.pairwise_iff_forall_sublist]
        intro a b hab
        exact Or.inr ⟨line_of_mem_logRecords (hab.subset (by simp)),
          line_of_mem_logRecords (hab.subset (by simp))⟩
      have hpre : ∀ e ∈ upToScan w ++ [.txnEnd, .unmarshalListOfMaps out.Items],
          e.line < 98 := by
        intro e he
        simp only [upToScan, List.mem_append, List.mem_cons, List.mem_singleton,
          List.not_mem_nil, or_false] at he
        rcases he with (he | he | he | he | he | he | he | he | he | he) | he | he <;>
          subst he <;> simp [Effect.line]
      rw [List.pairwise_append, List.pairwise_append]
      refine ⟨⟨by simp [upToScan, Effect.line], hlog, fun a ha b hb => ?_⟩, by simp,
        fun a ha b hb => ?_⟩
      · left
        rw [line_of_mem_logRecords hb]
        exact hpre a ha
      · simp only [List.mem_singleton] at hb
        subst hb
        left
        rcases List.mem_append.1 ha with ha | ha
        · have := hpre a ha
          have h102 : (Effect.shutdown 5).line = 102 := rfl
          omega
        · rw [line_of_mem_logRecords ha]
          simp [Effect.line]
  · intro h0
    rcases main_cases w with ⟨_, hm⟩ | ⟨_, _, hm⟩ | ⟨_, _, err, _, hm⟩ | ⟨_, _, _, err, _, hm⟩ |
      ⟨_, _, _, _, err, _, hm⟩ | ⟨_, _, _, _, out, err, _, _, hm⟩ |
      ⟨_, _, _, _, out, records, hscan, hdec, hm⟩
    all_goals try (rw [hm] at h0; cases h0)
    exact ⟨out, records, hscan, hdec, by simp [hm, upToScan]⟩

/-- Witness of the amended C10: the wait times out and the run goes on to
exit with status 0 after the full sequence of effects. -/
theorem effects_follow_source_order_witness :
    worldWaitTimesOut.waitForConnection = some "timeout out after 5s" ∧
    (main worldWaitTimesOut).exit = 0 ∧
    ∃ out records, worldWaitTimesOut.scan (scanParam worldWaitTimesOut.tableName) = .ok out ∧
      worldWaitTimesOut.unmarshalListOfMaps out.Items = .ok records ∧
      (main worldWaitTimesOut).trace =
        [.flagParse, .newApplication "Go Dynamo App" true,
         .loadDefaultConfig worldWaitTimesOut.region,
         .waitForConnection 5, .appendMiddlewares, .newFromConfig,
         .startTransaction "dynamoScan", .addAttribute "table" worldWaitTimesOut.tableName,
         .newContext, .scan (scanParam worldWaitTimesOut.tableName), .txnEnd,
         .unmarshalListOfMaps out.Items] ++
        logRecords records ++ [.shutdown 5] :=
  ⟨rfl, rfl, (effects_follow_source_order worldWaitTimesOut).2.1 rfl⟩

/-- Decoding the string values made from a list of strings gives the list
back. -/
theorem decodeStrings_map_S (urls : List String) :
    decodeStrings (urls.map AttributeValue.S) = .ok urls := by
  induction urls with
  | nil => rfl
  | cons u rest ih => simp [decodeStrings, decodeString, ih]

/-- Decoding the encoding of a record gives the record back. -/
theorem decodeRecord_encodeRecord (missingURL : Except String (List String)) (r : Record) :
    decodeRecord missingURL (encodeRecord r) = .ok r := by
  simp [decodeRecord, encodeRecord, List.lookup, decodeString, decodeStrings_map_S]

/-- C6: decode round trip.  For every list of records, decoding the list of
their encodings (`ID` a string value, `URL` a list of string values) succeeds
and gives back the same records in the same order: as many as were encoded,
each with its ID and its URL list unchanged. -/
theorem unmarshal_encode_roundtrip (missingURL : Except String (List String))
    (records : List Record) :
    unmarshalListOfMaps missingURL (records.map encodeRecord) = .ok records ∧
    (records.map encodeRecord).length = records.length := by
  refine ⟨?_, by simp⟩
  induction records with
  | nil => rfl
  | cons r rest ih => simp [unmarshalListOfMaps, decodeRecord_encodeRecord, ih]

/-- Counterexample to C7: `main` makes no check of its own on the items.  A
scan response with an item that lacks the ID field, and one with a number in a
URL list, are decoded without error by the decoder of the storage SDK; the run
writes one record line per item (the missing ID as the empty string, the
number as its text) and exits with status 0. -/
theorem malformed_items_are_logged :
    ((∃ item ∈ missingIDItems, lacksID item) ∧
      worldMissingID.scan (scanParam worldMissingID.tableName) =
        .ok { Items := missingIDItems } ∧
      worldMissingID.unmarshalListOfMaps missingIDItems =
        .ok [⟨"id1", ["http://a"]⟩, ⟨"", ["http://b"]⟩] ∧
      recordLines (main worldMissingID).trace =
        [("Record : %v", ⟨"id1", ["http://a"]⟩), ("Record : %v", ⟨"", ["http://b"]⟩)] ∧
      (main worldMissingID).exit = 0) ∧
    ((∃ item ∈ nonStringItems, urlHoldsNonString item) ∧
      worldNumberInURL.scan (scanParam worldNumberInURL.tableName) =
        .ok { Items := nonStringItems } ∧
      worldNumberInURL.unmarshalListOfMaps nonStringItems =
        .ok [⟨"id1", ["http://a"]⟩, ⟨"id2", ["http://b", "1"]⟩] ∧
      recordLines (main worldNumberInURL).trace =
        [("Record : %v", ⟨"id1", ["http://a"]⟩),
         ("Record : %v", ⟨"id2", ["http://b", "1"]⟩)] ∧
      (main worldNumberInURL).exit = 0) := by
  refine ⟨⟨⟨[("URL", .L [.S "http://b"])], by simp [missingIDItems], rfl⟩,
    rfl, rfl, rfl, rfl⟩, ⟨⟨[("ID", .S "id2"), ("URL", .L [.S "http://b", .N "1"])],
      by simp [nonStringItems], ?_⟩, rfl, rfl, rfl, rfl⟩⟩
  exact ⟨[.S "http://b", .N "1"], rfl, .N "1", by simp, fun s hs => by cases hs⟩

/-- C7, amended: for every scan response a run receives, whatever its items
are (so also when one lacks the ID field or holds a non-string element in its
URL list): if decoding the item list into `[]Record` returns an error, the run
writes no record line and exits non-zero; if decoding returns records, the run
writes one record line per decoded record, in order, and exits with status 0.
Whether such an item makes the decoding fail is the decoder's answer alone. -/
theorem logging_follows_decoder_answer (w : World) (out : ScanOutput)
    (ht : w.tableName ≠ "") (hr : w.region ≠ "")
    (happ : w.newApplication = .ok ()) (hcfg : w.loadDefaultConfig w.region = .ok ())
    (hscan : w.scan (scanParam w.tableName) = .ok out) :
    (∀ err, w.unmarshalListOfMaps out.Items = .error err →
      recordLines (main w).trace = [] ∧ (main w).exit ≠ 0) ∧
    (∀ records, w.unmarshalListOfMaps out.Items = .ok records →
      recordLines (main w).trace = records.map (fun r => ("Record : %v", r)) ∧
      (main w).exit = 0) := by
  refine ⟨fun err hdec => ?_, fun records hdec => ?_⟩
  · have hfatal := fatal_of_decode_error w out err hscan hdec
    exact ⟨no_record_line_of_fatal w hfatal, hfatal⟩
  · exact record_lines_of_decoded w out records ht hr happ hcfg hscan hdec

/-- Witness of the amended C7: the response with an item without ID is
accepted by the decoder and both items are logged; the response with a string
value for URL is rejected by the decoder and nothing is logged. -/
theorem logging_follows_decoder_answer_witness :
    (worldMissingID.tableName ≠ "" ∧ worldMissingID.region ≠ "" ∧
      worldMissingID.newApplication = .ok () ∧
      worldMissingID.loadDefaultConfig worldMissingID.region = .ok () ∧
      worldMissingID.scan (scanParam worldMissingID.tableName) =
        .ok { Items := missingIDItems } ∧
      worldMissingID.unmarshalListOfMaps missingIDItems =
        .ok [⟨"id1", ["http://a"]⟩, ⟨"", ["http://b"]⟩] ∧
      recordLines (main worldMissingID).trace =
        [("Record : %v", ⟨"id1", ["http://a"]⟩), ("Record : %v", ⟨"", ["http://b"]⟩)] ∧
      (main worldMissingID).exit = 0) ∧
    (worldBadItem.unmarshalListOfMaps
        [[("ID", .S "id1"), ("URL", .L [.S "http://a"])],
         [("ID", .S "id2"), ("URL", .S "http://b")]] =
        .error "cannot unmarshal into []string" ∧
      recordLines (main worldBadItem).trace = [] ∧ (main worldBadItem).exit ≠ 0) :=
  have ht : worldMissingID.tableName ≠ "" := by decide
  have hr : worldMissingID.region ≠ "" := by decide
  have h := (logging_follows_decoder_answer worldMissingID { Items := missingIDItems }
    ht hr rfl rfl rfl).2 [⟨"id1", ["http://a"]⟩, ⟨"", ["http://b"]⟩] rfl
  have hbad := (logging_follows_decoder_answer worldBadItem
    { Items := [[("ID", .S "id1"), ("URL", .L [.S "http://a"])],
                [("ID", .S "id2"), ("URL", .S "http://b")]] }
    ht hr rfl rfl rfl).1 "cannot unmarshal into []string" rfl
  ⟨⟨ht, hr, rfl, rfl, rfl, rfl, h.1, h.2⟩, ⟨rfl, hbad.1, hbad.2⟩⟩

end ScanItems
